import Mathlib

/-
Verification of the XLIFF translation-analysis core:
unit extraction (script/check_translation.py, script/extract_glossary.py),
text normalization, quality classification, and glossary alignment.
Python strings are modelled as List Char; Python floats produced by exact
整数 division are modelled as rationals (the claims under study concern which
quotient is computed, not IEEE rounding); Python dicts are modelled as
insertion-ordered association lists and Python sets as Finset.
-/

namespace XliffCore

/-- Model of Python str.isspace restricted to the ASCII whitespace
characters (space, tab, newline, carriage return, vertical tab, form feed).
All three analysis functions use the same class, and every property proved
below is parametric in it. -/
def isPySpace (c : Char) : Bool :=
  c = ' ' || c = '\t' || c = '\n' || c = '\r' || c = '\x0b' || c = '\x0c'

/-- Model of normalize_text: remove every whitespace character, then
lower-case (join of str.split, then str.lower; ASCII case mapping). -/
def normalize_text (s : List Char) : List Char :=
  (s.filter (fun c => !isPySpace c)).map Char.toLower

/-- Model of char_len: number of non-whitespace characters. -/
def char_len (s : List Char) : Nat :=
  (s.filter (fun c => !isPySpace c)).length

/-- Model of ascii_ratio: fraction of non-whitespace characters with code
point below 128; 0 for an empty string or when no non-whitespace exists. -/
def ascii_ratio (s : List Char) : ℚ :=
  if s = [] then 0
  else
    let ascii_chars := (s.filter (fun c => c.toNat < 128 && !isPySpace c)).length
    let total := (s.filter (fun c => !isPySpace c)).length
    if total ≠ 0 then (ascii_chars : ℚ) / (total : ℚ) else 0

/-- Model of Python str.replace(p, "") for a two-character pattern p = [a, b]:
scan left to right, deleting non-overlapping occurrences greedily. -/
def replace2 (a b : Char) : List Char → List Char
  | [] => []
  | [c] => [c]
  | c :: d :: rest =>
    if c = a ∧ d = b then replace2 a b rest
    else c :: replace2 a b (d :: rest)

/-- Model of strip_markup: s.replace("**", "").replace("//", ""). -/
def strip_markup (s : List Char) : List Char :=
  replace2 '/' '/' (replace2 '*' '*' s)

/-- Decide whether the two-character sequence [a, b] occurs in a list. -/
def hasSub2 (a b : Char) : List Char → Bool
  | c :: d :: rest => (c = a && d = b) || hasSub2 a b (d :: rest)
  | _ => false

/-- Model of a parsed ElementTree element: tag (namespaced tags carry the
brace-wrapped URI, as ElementTree stores them), attribute list, leading text,
child elements in document order, and trailing text (tail). -/
inductive Elem where
  | mk (tag : String) (attrs : List (String × String)) (text : String)
       (children : List Elem) (tail : String)

def Elem.tag : Elem → String
  | .mk t _ _ _ _ => t

def Elem.attrs : Elem → List (String × String)
  | .mk _ a _ _ _ => a

def Elem.text : Elem → String
  | .mk _ _ x _ _ => x

def Elem.children : Elem → List Elem
  | .mk _ _ _ c _ => c

def Elem.tail : Elem → String
  | .mk _ _ _ _ t => t

mutual
/-- Model of Element.itertext joined by the empty string: own text, then for
each child its itertext followed by its tail. -/
def itertext : Elem → String
  | .mk _ _ t ch _ => t ++ itertextList ch

def itertextList : List Elem → String
  | [] => ""
  | c :: cs => itertext c ++ c.tail ++ itertextList cs
end

mutual
/-- Every element strictly below this one, in document (preorder) order. -/
def elemDesc : Elem → List Elem
  | .mk _ _ _ ch _ => descList ch

/-- Every element of the list together with everything below each, in
document (preorder) order. -/
def descList : List Elem → List Elem
  | [] => []
  | c :: cs => c :: (elemDesc c ++ descList cs)
end

/-- Model of root.findall with a descendant axis: every element strictly
below root, in document order. -/
def descendants (root : Elem) : List Elem :=
  descList root.children

/-- Model of element.iter(): the element itself followed by its
descendants. -/
def allElems (root : Elem) : List Elem :=
  root :: descendants root

/-- Model of the helper that returns the part of a tag after the first
closing brace, if any. -/
def afterBrace : List Char → Option (List Char)
  | [] => none
  | c :: cs => if c = '}' then some cs else afterBrace cs

/-- Model of the local-tag helper: the tag with any brace-wrapped namespace
removed (text after the first closing brace, or the whole tag). -/
def localOf (tag : String) : String :=
  match afterBrace tag.data with
  | some rest => String.mk rest
  | none => tag

/-- Model of element.get(key, default empty): first attribute with the key. -/
def getAttr (e : Elem) (k : String) : String :=
  match e.attrs.find? (fun p => p.1 = k) with
  | some p => p.2
  | none => ""

/-- Model of element.find(tag) for a plain tag: the first direct child whose
full tag equals it (no namespace tolerance). -/
def findChild (t : String) (e : Elem) : Option Elem :=
  e.children.find? (fun c => c.tag = t)

/-- Shared body of the flat trans-unit loop (identical in both scripts):
id attribute plus source/target itertext, or skip if either child lacks. -/
def flatRecord (tu : Elem) : Option (String × String × String) :=
  match findChild "source" tu, findChild "target" tu with
  | some s, some t => some (getAttr tu "id", itertext s, itertext t)
  | _, _ => none

/-- Every descendant matched by findall of the plain path .//trans-unit:
exact tag equality, namespaced tags do not match. -/
def flatTransUnits (root : Elem) : List Elem :=
  (descendants root).filter (fun e => e.tag = "trans-unit")

/-- Model of iter_units in script/extract_glossary.py: flat shape only. -/
def iter_units_glossary (root : Elem) : List (String × String × String) :=
  (flatTransUnits root).filterMap flatRecord

/-- Last direct child of the list whose local tag matches (the Python loop
keeps reassigning, so the last match wins). -/
def lastChildWith (t : String) (cs : List Elem) : Option Elem :=
  cs.foldl (fun acc c => if localOf c.tag = t then some c else acc) none

/-- One segment of a Shape B unit: source/target by local tag among direct
children; emitted id is the unit id when the unit has exactly one segment,
else unit id, colon, 1-based index. -/
def segRecord (uid : String) (nsegs : Nat) (idx : Nat) (seg : Elem) :
    Option (String × String × String) :=
  match lastChildWith "source" seg.children, lastChildWith "target" seg.children with
  | some s, some t =>
      some (if nsegs = 1 then uid else uid ++ ":" ++ toString idx,
            itertext s, itertext t)
  | _, _ => none

/-- Segments of a Shape B unit: direct children with local tag segment,
falling back to a full-subtree search when there are none. -/
def segmentsOf (u : Elem) : List Elem :=
  let direct := u.children.filter (fun c => localOf c.tag = "segment")
  if direct.isEmpty then (allElems u).filter (fun c => localOf c.tag = "segment")
  else direct

/-- All records a Shape B unit element emits. -/
def segRecords (u : Elem) : List (String × String × String) :=
  let segs := segmentsOf u
  segs.enum.filterMap (fun p => segRecord (getAttr u "id") segs.length (p.1 + 1) p.2)

/-- Shape B pass of iter_units in script/check_translation.py: every element
with local tag unit, in document order. -/
def segUnits (root : Elem) : List (String × String × String) :=
  ((allElems root).filter (fun e => localOf e.tag = "unit")).flatMap segRecords

/-- Model of iter_units in script/check_translation.py: flat trans-unit
elements take exclusive priority; otherwise the segmented fallback runs. -/
def iter_units_check (root : Elem) : List (String × String × String) :=
  let tus := flatTransUnits root
  if tus.isEmpty then segUnits root else tus.filterMap flatRecord

/-- Model of Python str.strip(): drop whitespace from both ends. -/
def pyStrip (s : List Char) : List Char :=
  ((s.dropWhile isPySpace).reverse.dropWhile isPySpace).reverse

/-- Model of the preview computation: strip, replace newlines by spaces,
keep the first 60 characters. -/
def previewOf (s : List Char) : List Char :=
  ((pyStrip s).map (fun c => if c = '\n' then ' ' else c)).take 60

/-- Model of ASCII_LETTER_RE.search(s) is not None. -/
def hasAsciiLetter (s : List Char) : Bool :=
  s.any (fun c => ('A' ≤ c && c ≤ 'Z') || ('a' ≤ c && c ≤ 'z'))

/-- Per-unit report of the quality classifier. The on-disk ratio is further
rounded to three decimals for display; that IEEE formatting step is output
serialization and is not modelled — ratio here is the exact quotient the
classifier computes and tests against the thresholds. -/
structure UnitReport where
  id : String
  source_chars : Nat
  target_chars : Nat
  ratio : ℚ
  untranslated : Bool
  ascii_heavy : Bool
  ratio_flag : Bool
  source_preview : List Char
  target_preview : List Char

/-- Aggregate of the quality classifier (display rounding not modelled). -/
structure Summary where
  units : Nat
  untranslated : Nat
  ascii_heavy : Nat
  ratio_flags : Nat
  avg_ratio : ℚ
  min_ratio : ℚ
  max_ratio : ℚ

/-- Loop body of analyze for one unit: strip markup, normalize, flag, and
compute the length ratio with the zero floored to one. -/
def mkUnitReport (min_ratio max_ratio ascii_threshold : ℚ)
    (u : String × String × String) : UnitReport :=
  let src_clean := strip_markup u.2.1.data
  let tgt_clean := strip_markup u.2.2.data
  let src_norm := normalize_text src_clean
  let tgt_norm := normalize_text tgt_clean
  let untranslated : Bool := decide (src_norm = tgt_norm ∧ src_norm ≠ [])
  let ascii_r := ascii_ratio tgt_clean
  let ascii_heavy : Bool := decide (ascii_threshold ≤ ascii_r) && hasAsciiLetter tgt_clean
  let s_len := max (char_len src_clean) 1
  let t_len := char_len tgt_clean
  let ratio : ℚ := if s_len ≠ 0 then (t_len : ℚ) / (s_len : ℚ) else 0
  let ratio_flag : Bool := decide (ratio < min_ratio ∨ max_ratio < ratio)
  { id := u.1, source_chars := s_len, target_chars := t_len, ratio := ratio,
    untranslated := untranslated, ascii_heavy := ascii_heavy, ratio_flag := ratio_flag,
    source_preview := previewOf src_clean, target_preview := previewOf tgt_clean }

/-- Model of analyze over an already extracted unit list: the per-unit
reports plus the aggregate (the Python accumulates the counters inside the
same loop; counting over the report list is the same computation). -/
def analyze (min_ratio max_ratio ascii_threshold : ℚ)
    (units : List (String × String × String)) : List UnitReport × Summary :=
  let reports := units.map (mkUnitReport min_ratio max_ratio ascii_threshold)
  let ratios := reports.map (fun r => r.ratio)
  let avg := if ratios.length ≠ 0 then ratios.sum / (ratios.length : ℚ) else 0
  (reports,
   { units := reports.length,
     untranslated := (reports.filter (fun r => r.untranslated)).length,
     ascii_heavy := (reports.filter (fun r => r.ascii_heavy)).length,
     ratio_flags := (reports.filter (fun r => r.ratio_flag)).length,
     avg_ratio := avg,
     min_ratio := (ratios.min?).getD 0,
     max_ratio := (ratios.max?).getD 0 })

/-- Character class [A-Z] of the glossary regexes. -/
def isUpperA (c : Char) : Bool := 'A' ≤ c && c ≤ 'Z'

/-- Character class [a-z] of the glossary regexes. -/
def isLowerA (c : Char) : Bool := 'a' ≤ c && c ≤ 'z'

/-- Digit class of the glossary regex (ASCII digits). -/
def isDigitA (c : Char) : Bool := '0' ≤ c && c ≤ '9'

/-- Katakana class of JA_TOKEN_RE: U+30A1 to U+30FA plus U+30FC. -/
def isKatakana (c : Char) : Bool :=
  (0x30A1 ≤ c.toNat && c.toNat ≤ 0x30FA) || c.toNat = 0x30FC

/-- Kanji class of JA_TOKEN_RE: U+4E00 to U+9FFF. -/
def isKanji (c : Char) : Bool := 0x4E00 ≤ c.toNat && c.toNat ≤ 0x9FFF

/-- Hiragana class of HIRAGANA_RE: U+3040 to U+309F. -/
def isHiragana (c : Char) : Bool := 0x3040 ≤ c.toNat && c.toNat ≤ 0x309F

/-- First alternative of EN_TOKEN_RE at a position: the literal SCP. -/
def enAlt1 : List Char → Option Nat
  | 'S' :: 'C' :: 'P' :: _ => some 3
  | _ => none

/-- Second alternative: capitalized word, optionally hyphen-joined to a
second capitalized word (the optional group needs a hyphen then an upper
and at least one lower character, else it is skipped). -/
def enAlt2 : List Char → Option Nat
  | [] => none
  | c :: cs =>
    if isUpperA c then
      let k := (cs.takeWhile isLowerA).length
      if k = 0 then none
      else
        match cs.drop k with
        | '-' :: u :: ls =>
          if isUpperA u then
            let m := (ls.takeWhile isLowerA).length
            if m = 0 then some (1 + k) else some (1 + k + 2 + m)
          else some (1 + k)
        | _ => some (1 + k)
    else none

/-- Third alternative: an all-uppercase run of length at least two. -/
def enAlt3 (s : List Char) : Option Nat :=
  let k := (s.takeWhile isUpperA).length
  if 2 ≤ k then some k else none

/-- Fourth alternative: CamelCase compound of two capitalized words
(unreachable after the second alternative, embedded for faithfulness). -/
def enAlt4 : List Char → Option Nat
  | [] => none
  | c :: cs =>
    if isUpperA c then
      let k := (cs.takeWhile isLowerA).length
      if k = 0 then none
      else
        match cs.drop k with
        | u :: ls =>
          if isUpperA u then
            let m := (ls.takeWhile isLowerA).length
            if m = 0 then none else some (1 + k + 1 + m)
          else none
        | [] => none
    else none

/-- Fifth alternative: capitalized word followed by digits (also
unreachable after the second alternative). -/
def enAlt5 : List Char → Option Nat
  | [] => none
  | c :: cs =>
    if isUpperA c then
      let k := (cs.takeWhile isLowerA).length
      if k = 0 then none
      else
        let m := ((cs.drop k).takeWhile isDigitA).length
        if m = 0 then none else some (1 + k + m)
    else none

/-- Ordered alternation of EN_TOKEN_RE at one position: the first matching
alternative wins, as in the regex engine. -/
def matchEnAt (s : List Char) : Option Nat :=
  enAlt1 s <|> enAlt2 s <|> enAlt3 s <|> enAlt4 s <|> enAlt5 s

/-- First alternative of JA_TOKEN_RE: katakana run of length at least 2. -/
def jaAlt1 (s : List Char) : Option Nat :=
  let k := (s.takeWhile isKatakana).length
  if 2 ≤ k then some k else none

/-- Second alternative: one or more kanji followed by any katakana run. -/
def jaAlt2 (s : List Char) : Option Nat :=
  let k := (s.takeWhile isKanji).length
  if 1 ≤ k then some (k + ((s.drop k).takeWhile isKatakana).length) else none

/-- Third alternative: kanji run of length at least 2 (unreachable after
the second alternative, embedded for faithfulness). -/
def jaAlt3 (s : List Char) : Option Nat :=
  let k := (s.takeWhile isKanji).length
  if 2 ≤ k then some k else none

/-- Ordered alternation of JA_TOKEN_RE at one position. -/
def matchJaAt (s : List Char) : Option Nat :=
  jaAlt1 s <|> jaAlt2 s <|> jaAlt3 s

/-- Model of re.finditer for one of the token regexes, with an explicit
fuel (structural) bound: scan left to right; on a match of n characters
emit it and resume after it (after an empty match, resume one character
further, as the re module does); on a failure advance one character. Each
step consumes at least one character, so fuel equal to the string length
never runs out. -/
def finditerFuel (m : List Char → Option Nat) : Nat → List Char → List (List Char)
  | 0, _ => []
  | _, [] => []
  | fuel + 1, c :: rest =>
    match m (c :: rest) with
    | some n => (c :: rest).take n :: finditerFuel m fuel ((c :: rest).drop (max n 1))
    | none => finditerFuel m fuel rest

/-- Model of re.finditer: run the scan with its length as fuel. -/
def finditerAux (m : List Char → Option Nat) (s : List Char) : List (List Char) :=
  finditerFuel m s.length s

/-- Model of Python str.strip of the hyphen character. -/
def stripDash (s : List Char) : List Char :=
  ((s.dropWhile (fun c => c = '-')).reverse.dropWhile (fun c => c = '-')).reverse

/-- Order-preserving deduplication (dict.fromkeys): keep first occurrence. -/
def dedupeFrom (seen : List String) : List String → List String
  | [] => []
  | x :: xs => if x ∈ seen then dedupeFrom seen xs else x :: dedupeFrom (x :: seen) xs

/-- Model of list(dict.fromkeys(candidates)). -/
def dedupe (l : List String) : List String := dedupeFrom [] l

/-- Stop-word set EN_STOP. -/
def EN_STOP : List String :=
  ["The", "A", "An", "And", "Or", "But", "If", "Of", "For", "To", "In", "On",
   "At", "It", "You", "I", "We", "He", "She", "They", "Them", "Is", "Are",
   "Am", "Be", "Been", "Was", "Were", "This", "That", "These", "Those", "My",
   "Your", "Our", "Their", "With", "As", "Not", "Have", "Has", "Had", "Will",
   "Can", "Do", "Did", "So", "All", "Any"]

/-- Model of extract_en: regex matches, hyphens stripped from the ends,
short and stop-listed tokens dropped, deduplicated in order. -/
def extract_en (text : List Char) : List String :=
  dedupe ((finditerAux matchEnAt text).filterMap (fun tokL =>
    let tok := String.mk (stripDash tokL)
    if tok.length < 2 then none
    else if tok ∈ EN_STOP then none
    else some tok))

/-- Model of HIRAGANA_RE full match: nonempty and entirely hiragana. -/
def isHiraganaOnly (s : List Char) : Bool := !s.isEmpty && s.all isHiragana

/-- Model of extract_ja: regex matches, all-hiragana and short tokens
dropped, deduplicated in order. -/
def extract_ja (text : List Char) : List String :=
  dedupe ((finditerAux matchJaAt text).filterMap (fun tokL =>
    if isHiraganaOnly tokL then none
    else if tokL.length < 2 then none
    else some (String.mk tokL)))

/-- Model of the Pair dataclass; example_ids is a Python set, modelled as a
Finset. -/
structure Pair where
  src : String
  tgt : String
  count : Nat
  ids : Finset String
deriving DecidableEq

/-- Accumulator of build_glossary: the pairs dict and the two defaultdict
bins, modelled as insertion-ordered association lists. -/
structure GlossaryState where
  pairs : List ((String × String) × Pair)
  en_unmatched : List (String × Finset String)
  ja_unmatched : List (String × Finset String)

/-- Dictionary lookup on an association list: first entry with the key. -/
def alookup {κ β : Type} [DecidableEq κ] (k : κ) : List (κ × β) → Option β
  | [] => none
  | e :: es => if e.1 = k then some e.2 else alookup k es

/-- In-place update of every entry with the key (at most one exists). -/
def listUpdate {κ β : Type} [DecidableEq κ] (m : List (κ × β)) (k : κ)
    (f : β → β) : List (κ × β) :=
  m.map (fun e => if e.1 = k then (e.1, f e.2) else e)

/-- Model of the aligned branch: insert a fresh zero pair when the key is
absent (dict insertion appends), then increment its count and add the id. -/
def bumpPair (m : List ((String × String) × Pair)) (k : String × String)
    (sid : String) : List ((String × String) × Pair) :=
  let m1 := if (alookup k m).isNone then m ++ [(k, ⟨k.1, k.2, 0, ∅⟩)] else m
  listUpdate m1 k (fun p => { p with count := p.count + 1, ids := insert sid p.ids })

/-- Model of defaultdict(set) access plus set.add: a missing key appears
with the empty set, then the id is inserted. -/
def addUnmatched (m : List (String × Finset String)) (t sid : String) :
    List (String × Finset String) :=
  let m1 := if (alookup t m).isNone then m ++ [(t, ∅)] else m
  listUpdate m1 t (fun s => insert sid s)

/-- Loop body of build_glossary for one unit. -/
def glossaryStep (st : GlossaryState) (u : String × String × String) :
    GlossaryState :=
  let en_terms := extract_en u.2.1.data
  let ja_terms := extract_ja u.2.2.data
  match en_terms, ja_terms with
  | [s], [t] => { st with pairs := bumpPair st.pairs (s, t) u.1 }
  | es, js =>
      { st with
        en_unmatched := es.foldl (fun m t => addUnmatched m t u.1) st.en_unmatched,
        ja_unmatched := js.foldl (fun m t => addUnmatched m t u.1) st.ja_unmatched }

def emptyGlossary : GlossaryState := ⟨[], [], []⟩

/-- Model of build_glossary over an already extracted unit list. -/
def build_glossary (units : List (String × String × String)) : GlossaryState :=
  units.foldl glossaryStep emptyGlossary

/-- Key a unit aligns under, when it has exactly one candidate per side. -/
def unitKey (u : String × String × String) : Option (String × String) :=
  match extract_en u.2.1.data, extract_ja u.2.2.data with
  | [s], [t] => some (s, t)
  | _, _ => none

/-- Concrete flat-shape document: one literal trans-unit. -/
def flatSrc : Elem := .mk "source" [] "Hello" [] ""

def flatTgt : Elem := .mk "target" [] "World" [] ""

def flatTU : Elem := .mk "trans-unit" [("id", "1")] "" [flatSrc, flatTgt] ""

def flatDoc : Elem := .mk "xliff" [] "" [flatTU] ""

/-- Concrete segmented-shape document: one unit with one segment. -/
def segSrc : Elem := .mk "source" [] "Hello" [] ""

def segTgt : Elem := .mk "target" [] "World" [] ""

def segSeg : Elem := .mk "segment" [] "" [segSrc, segTgt] ""

def segU : Elem := .mk "unit" [("id", "u1")] "" [segSeg] ""

def segDoc : Elem := .mk "xliff" [] "" [segU] ""

/-- Concrete namespaced flat-shape document, as ElementTree parses a file
with a default namespace: every tag carries the brace-wrapped URI. -/
def nsSrc : Elem := .mk "\x7burn:x\x7dsource" [] "Hello" [] ""

def nsTgt : Elem := .mk "\x7burn:x\x7dtarget" [] "World" [] ""

def nsTU : Elem := .mk "\x7burn:x\x7dtrans-unit" [("id", "1")] "" [nsSrc, nsTgt] ""

def nsDoc : Elem := .mk "\x7burn:x\x7dxliff" [] "" [nsTU] ""

/-- Concrete document mixing a trans-unit with a unit/segment element. -/
def mixDoc : Elem := .mk "xliff" [] "" [flatTU, segU] ""

/-- Concrete unit with two segments. -/
def twoSeg1 : Elem := .mk "segment" [] "" [.mk "source" [] "aa" [] "", .mk "target" [] "bb" [] ""] ""

def twoSeg2 : Elem := .mk "segment" [] "" [.mk "source" [] "cc" [] "", .mk "target" [] "dd" [] ""] ""

def twoSegUnit : Elem := .mk "unit" [("id", "tu2")] "" [twoSeg1, twoSeg2] ""

/-- Bumped pair value: a fresh pair for an absent key, an incremented pair
with the id added otherwise. -/
def bumpVal (k : String × String) (b : Option Pair) (sid : String) : Pair :=
  match b with
  | none => ⟨k.1, k.2, 1, insert sid ∅⟩
  | some p => ⟨p.src, p.tgt, p.count + 1, insert sid p.ids⟩

/-- Accumulated pair value for a key after processing the listed aligned
unit ids on top of a base value. -/
def pairAcc (k : String × String) (b : Option Pair) (ids : List String) : Option Pair :=
  match b with
  | some p => some ⟨p.src, p.tgt, p.count + ids.length, p.ids ∪ ids.toFinset⟩
  | none => if ids = [] then none else some ⟨k.1, k.2, ids.length, ids.toFinset⟩

/-- Accumulated unmatched id set after inserting the listed unit ids on top
of a base entry. -/
def setAcc (b : Option (Finset String)) (ids : List String) : Option (Finset String) :=
  if ids = [] then b else some (ids.toFinset ∪ b.getD ∅)

/-- Ids of the units aligned to a key, in processing order. -/
def alignedIds (k : String × String) (l : List (String × String × String)) : List String :=
  (l.filter (fun v => unitKey v = some k)).map (fun v => v.1)

/-- Ids of the non-aligned units whose source candidates include a term. -/
def enHits (t : String) (l : List (String × String × String)) : List String :=
  (l.filter (fun v => unitKey v = none ∧ t ∈ extract_en v.2.1.data)).map (fun v => v.1)

/-- Ids of the non-aligned units whose target candidates include a term. -/
def jaHits (t : String) (l : List (String × String × String)) : List String :=
  (l.filter (fun v => unitKey v = none ∧ t ∈ extract_ja v.2.2.data)).map (fun v => v.1)

theorem replace2_cons_of_ne (a : Char) (d : Char) (rest : List Char)
    (hd : d ≠ a) : replace2 a a (d :: rest) = d :: replace2 a a rest := by
  cases rest with
  | nil => simp [replace2]
  | cons e rest' =>
    simp only [replace2]
    rw [if_neg]
    intro hc
    exact hd hc.1

/-- After deleting every occurrence of the doubled character aa, no
occurrence of aa remains (each maximal run of a leaves at most one a, and
all other characters survive in place). -/
theorem hasSub2_replace2_self (a : Char) (l : List Char) :
    hasSub2 a a (replace2 a a l) = false := by
  induction l using replace2.induct a a with
  | case1 => simp [replace2, hasSub2]
  | case2 c => simp [replace2, hasSub2]
  | case3 c d rest h ih =>
    simp only [replace2, if_pos h]
    exact ih
  | case4 c d rest h ih =>
    simp only [replace2, if_neg h]
    by_cases hd : d = a
    · have hc : c ≠ a := by
        intro hc
        exact h ⟨hc, hd⟩
      cases hr : replace2 a a (d :: rest) with
      | nil => simp [hasSub2]
      | cons x xs =>
        simp only [hasSub2, Bool.or_eq_false_iff]
        constructor
        · simp [decide_eq_true_eq, hc]
        · rw [← hr]; exact ih
    · rw [replace2_cons_of_ne a d rest hd]
      simp only [hasSub2, Bool.or_eq_false_iff]
      refine ⟨by simp [hd], ?_⟩
      rw [← replace2_cons_of_ne a d rest hd]
      exact ih

/-- Lookup in a concatenation falls through when the key misses the first
part. -/
theorem alookup_append_of_none {g b : Type} [DecidableEq g] (k : g)
    (l1 l2 : List (g × b)) (h : alookup k l1 = none) :
    alookup k (l1 ++ l2) = alookup k l2 := by
  induction l1 with
  | nil => rfl
  | cons e es ih =>
    simp only [alookup, List.cons_append] at h ⊢
    by_cases he : e.1 = k
    · simp [he] at h
    · rw [if_neg he] at h ⊢
      exact ih h

/-- Lookup in a concatenation is decided by the first part when it hits. -/
theorem alookup_append_of_some {g b : Type} [DecidableEq g] (k : g) (v : b)
    (l1 l2 : List (g × b)) (h : alookup k l1 = some v) :
    alookup k (l1 ++ l2) = some v := by
  induction l1 with
  | nil => exact absurd h (by simp [alookup])
  | cons e es ih =>
    simp only [alookup, List.cons_append] at h ⊢
    by_cases he : e.1 = k
    · rw [if_pos he] at h ⊢
      exact h
    · rw [if_neg he] at h ⊢
      exact ih h

/-- Updating at a key maps its looked-up value. -/
theorem alookup_listUpdate_self {g b : Type} [DecidableEq g]
    (m : List (g × b)) (k : g) (f : b → b) :
    alookup k (listUpdate m k f) = (alookup k m).map f := by
  induction m with
  | nil => rfl
  | cons e es ih =>
    simp only [listUpdate, List.map_cons] at ih ⊢
    by_cases he : e.1 = k
    · rw [if_pos he]
      simp [alookup, he]
    · rw [if_neg he]
      simp [alookup, he, ih]

/-- Updating at a key leaves every other lookup unchanged. -/
theorem alookup_listUpdate_ne {g b : Type} [DecidableEq g]
    (m : List (g × b)) (k k' : g) (f : b → b) (h : k' ≠ k) :
    alookup k' (listUpdate m k f) = alookup k' m := by
  induction m with
  | nil => rfl
  | cons e es ih =>
    simp only [listUpdate, List.map_cons] at ih ⊢
    by_cases he : e.1 = k
    · have h2 : ¬ (e.1 = k') := fun hh => h (hh.symm.trans he)
      rw [if_pos he]
      simp [alookup, h2, ih]
    · by_cases h2 : e.1 = k'
      · rw [if_neg he]
        simp [alookup, h2]
      · rw [if_neg he]
        simp [alookup, h2, ih]

/-- Lookup at the bumped key: a fresh pair carries count one and the unit
id alone; an existing pair gains one count and the id. -/
theorem alookup_bumpPair_self (m : List ((String × String) × Pair))
    (k : String × String) (sid : String) :
    alookup k (bumpPair m k sid) =
      some (match alookup k m with
            | none => ⟨k.1, k.2, 1, insert sid ∅⟩
            | some p => ⟨p.src, p.tgt, p.count + 1, insert sid p.ids⟩) := by
  rcases h : alookup k m with _ | p
  · have h1 : bumpPair m k sid =
        listUpdate (m ++ [(k, ⟨k.1, k.2, 0, ∅⟩)]) k
          (fun p => { p with count := p.count + 1, ids := insert sid p.ids }) := by
      simp [bumpPair, h]
    rw [h1, alookup_listUpdate_self, alookup_append_of_none k _ _ h]
    simp [alookup]
  · have h1 : bumpPair m k sid =
        listUpdate m k
          (fun p => { p with count := p.count + 1, ids := insert sid p.ids }) := by
      simp [bumpPair, h]
    rw [h1, alookup_listUpdate_self, h]
    rfl

/-- Bumping one key leaves every other pair lookup unchanged. -/
theorem alookup_bumpPair_ne (m : List ((String × String) × Pair))
    (k k' : String × String) (sid : String) (h : k' ≠ k) :
    alookup k' (bumpPair m k sid) = alookup k' m := by
  rcases h0 : alookup k m with _ | p
  · have h1 : bumpPair m k sid =
        listUpdate (m ++ [(k, ⟨k.1, k.2, 0, ∅⟩)]) k
          (fun p => { p with count := p.count + 1, ids := insert sid p.ids }) := by
      simp [bumpPair, h0]
    rw [h1, alookup_listUpdate_ne _ _ _ _ h]
    rcases h2 : alookup k' m with _ | v
    · rw [alookup_append_of_none k' _ _ h2]
      simp [alookup, fun hh => h.symm (hh : k = k')]
    · rw [alookup_append_of_some k' v _ _ h2]
  · have h1 : bumpPair m k sid =
        listUpdate m k
          (fun p => { p with count := p.count + 1, ids := insert sid p.ids }) := by
      simp [bumpPair, h0]
    rw [h1]
    exact alookup_listUpdate_ne _ _ _ _ h

/-- Lookup at an added unmatched term: the id is inserted into the previous
set, the empty set standing for a missing key. -/
theorem alookup_addUnmatched_self (m : List (String × Finset String))
    (t sid : String) :
    alookup t (addUnmatched m t sid) =
      some (insert sid ((alookup t m).getD ∅)) := by
  rcases h : alookup t m with _ | v
  · have h1 : addUnmatched m t sid =
        listUpdate (m ++ [(t, ∅)]) t (fun s => insert sid s) := by
      simp [addUnmatched, h]
    rw [h1, alookup_listUpdate_self, alookup_append_of_none t _ _ h]
    simp [alookup]
  · have h1 : addUnmatched m t sid =
        listUpdate m t (fun s => insert sid s) := by
      simp [addUnmatched, h]
    rw [h1, alookup_listUpdate_self, h]
    rfl

/-- Adding one unmatched term leaves other term lookups unchanged. -/
theorem alookup_addUnmatched_ne (m : List (String × Finset String))
    (t t' sid : String) (h : t' ≠ t) :
    alookup t' (addUnmatched m t sid) = alookup t' m := by
  rcases h0 : alookup t m with _ | v
  · have h1 : addUnmatched m t sid =
        listUpdate (m ++ [(t, ∅)]) t (fun s => insert sid s) := by
      simp [addUnmatched, h0]
    rw [h1, alookup_listUpdate_ne _ _ _ _ h]
    rcases h2 : alookup t' m with _ | w
    · rw [alookup_append_of_none t' _ _ h2]
      simp [alookup, fun hh => h.symm (hh : t = t')]
    · rw [alookup_append_of_some t' w _ _ h2]
  · have h1 : addUnmatched m t sid =
        listUpdate m t (fun s => insert sid s) := by
      simp [addUnmatched, h0]
    rw [h1]
    exact alookup_listUpdate_ne _ _ _ _ h

/-- Folding the unmatched insertion over a term list inserts the id exactly
at the listed terms (repeats are absorbed by set insertion). -/
theorem alookup_foldl_addUnmatched (terms : List String) (sid : String) :
    ∀ (m : List (String × Finset String)) (t : String),
    alookup t (terms.foldl (fun m x => addUnmatched m x sid) m) =
      if t ∈ terms then some (insert sid ((alookup t m).getD ∅))
      else alookup t m := by
  induction terms with
  | nil => intro m t; simp
  | cons x xs ih =>
    intro m t
    simp only [List.foldl_cons]
    rw [ih]
    by_cases hx : t = x
    · subst hx
      by_cases hmem : t ∈ xs
      · rw [if_pos hmem, if_pos (List.mem_cons_self t xs)]
        rw [alookup_addUnmatched_self]
        simp [Finset.insert_idem]
      · rw [if_neg hmem, if_pos (List.mem_cons_self t xs)]
        rw [alookup_addUnmatched_self]
    · rw [alookup_addUnmatched_ne _ _ _ _ hx]
      by_cases hmem : t ∈ xs
      · rw [if_pos hmem, if_pos (List.mem_cons_of_mem x hmem)]
      · rw [if_neg hmem, if_neg (by simp [List.mem_cons, hx, hmem])]



/-- Pair lookup across one glossary step: the aligned key is bumped, every
other key (and every key of a non-aligned unit) is untouched. -/
theorem glossaryStep_pairs_lookup (st : GlossaryState)
    (u : String × String × String) (k : String × String) :
    alookup k (glossaryStep st u).pairs =
      if unitKey u = some k then
        some (match alookup k st.pairs with
              | none => ⟨k.1, k.2, 1, insert u.1 ∅⟩
              | some p => ⟨p.src, p.tgt, p.count + 1, insert u.1 p.ids⟩)
      else alookup k st.pairs := by
  rcases E : extract_en u.2.1.data with _ | ⟨s, _ | ⟨s2, es⟩⟩ <;>
    rcases J : extract_ja u.2.2.data with _ | ⟨jt, _ | ⟨jt2, js⟩⟩ <;>
      simp only [glossaryStep, unitKey, E, J]
  all_goals try simp
  by_cases hk : (s, jt) = k
  · subst hk
    rw [if_pos rfl]
    exact alookup_bumpPair_self st.pairs (s, jt) u.1
  · rw [if_neg (by simpa using hk)]
    exact alookup_bumpPair_ne st.pairs (s, jt) k u.1 (fun hh => hk hh.symm)

/-- Source-side unmatched lookup across one glossary step: for a
non-aligned unit the id is inserted at exactly the extracted source terms;
an aligned unit touches nothing. -/
theorem glossaryStep_en_lookup (st : GlossaryState)
    (u : String × String × String) (t : String) :
    alookup t (glossaryStep st u).en_unmatched =
      if unitKey u = none ∧ t ∈ extract_en u.2.1.data then
        some (insert u.1 ((alookup t st.en_unmatched).getD ∅))
      else alookup t st.en_unmatched := by
  rcases E : extract_en u.2.1.data with _ | ⟨s, _ | ⟨s2, es⟩⟩ <;>
    rcases J : extract_ja u.2.2.data with _ | ⟨jt, _ | ⟨jt2, js⟩⟩ <;>
      simp only [glossaryStep, unitKey, E, J] <;>
        first
        | (rw [alookup_foldl_addUnmatched]; simp)
        | simp

/-- Target-side unmatched lookup across one glossary step. -/
theorem glossaryStep_ja_lookup (st : GlossaryState)
    (u : String × String × String) (t : String) :
    alookup t (glossaryStep st u).ja_unmatched =
      if unitKey u = none ∧ t ∈ extract_ja u.2.2.data then
        some (insert u.1 ((alookup t st.ja_unmatched).getD ∅))
      else alookup t st.ja_unmatched := by
  rcases E : extract_en u.2.1.data with _ | ⟨s, _ | ⟨s2, es⟩⟩ <;>
    rcases J : extract_ja u.2.2.data with _ | ⟨jt, _ | ⟨jt2, js⟩⟩ <;>
      simp only [glossaryStep, unitKey, E, J] <;>
        first
        | (rw [alookup_foldl_addUnmatched]; simp)
        | simp

/-- An aligned unit leaves both unmatched bins untouched. -/
theorem glossaryStep_aligned_unmatched (st : GlossaryState)
    (u : String × String × String) (k : String × String)
    (hk : unitKey u = some k) :
    (glossaryStep st u).en_unmatched = st.en_unmatched ∧
    (glossaryStep st u).ja_unmatched = st.ja_unmatched := by
  rcases E : extract_en u.2.1.data with _ | ⟨s, _ | ⟨s2, es⟩⟩ <;>
    rcases J : extract_ja u.2.2.data with _ | ⟨jt, _ | ⟨jt2, js⟩⟩ <;>
      simp only [unitKey, E, J] at hk <;>
        first
        | exact Option.noConfusion hk
        | simp [glossaryStep, E, J]

/-- A non-aligned unit leaves the pairs dict untouched. -/
theorem glossaryStep_nonaligned_pairs (st : GlossaryState)
    (u : String × String × String) (hk : unitKey u = none) :
    (glossaryStep st u).pairs = st.pairs := by
  rcases E : extract_en u.2.1.data with _ | ⟨s, _ | ⟨s2, es⟩⟩ <;>
    rcases J : extract_ja u.2.2.data with _ | ⟨jt, _ | ⟨jt2, js⟩⟩ <;>
      simp only [unitKey, E, J] at hk <;>
        first
        | exact Option.noConfusion hk
        | simp [glossaryStep, E, J]

/-- Claim C6: for each unit, if exactly one source and one target candidate
are extracted the Pair keyed by that pair of terms is created or
incremented with the unit id added to its example ids and nothing touches
the unmatched bins; otherwise every extracted candidate on both sides is
recorded in its unmatched bin with the unit id and no Pair is created or
updated. -/
theorem glossary_step_alignment (st : GlossaryState)
    (u : String × String × String) :
    (∀ k, unitKey u = some k →
      (glossaryStep st u).en_unmatched = st.en_unmatched ∧
      (glossaryStep st u).ja_unmatched = st.ja_unmatched ∧
      alookup k (glossaryStep st u).pairs =
        some (match alookup k st.pairs with
              | none => ⟨k.1, k.2, 1, insert u.1 ∅⟩
              | some p => ⟨p.src, p.tgt, p.count + 1, insert u.1 p.ids⟩) ∧
      (∀ k', k' ≠ k →
        alookup k' (glossaryStep st u).pairs = alookup k' st.pairs)) ∧
    (unitKey u = none →
      (glossaryStep st u).pairs = st.pairs ∧
      (∀ t, alookup t (glossaryStep st u).en_unmatched =
        if t ∈ extract_en u.2.1.data then
          some (insert u.1 ((alookup t st.en_unmatched).getD ∅))
        else alookup t st.en_unmatched) ∧
      (∀ t, alookup t (glossaryStep st u).ja_unmatched =
        if t ∈ extract_ja u.2.2.data then
          some (insert u.1 ((alookup t st.ja_unmatched).getD ∅))
        else alookup t st.ja_unmatched)) := by
  constructor
  · intro k hk
    have h1 := glossaryStep_aligned_unmatched st u k hk
    have hpairs := glossaryStep_pairs_lookup st u k
    rw [hk, if_pos rfl] at hpairs
    refine ⟨h1.1, h1.2, hpairs, ?_⟩
    intro k' hk'
    have hp := glossaryStep_pairs_lookup st u k'
    rw [hk, if_neg (by simpa using hk'.symm)] at hp
    exact hp
  · intro hk
    refine ⟨glossaryStep_nonaligned_pairs st u hk, ?_, ?_⟩
    · intro t
      have h := glossaryStep_en_lookup st u t
      rw [hk] at h
      simpa using h
    · intro t
      have h := glossaryStep_ja_lookup st u t
      rw [hk] at h
      simpa using h

/-- Claim C6 witness: a unit with the single source candidate Alpha and
the single target candidate a two-katakana run creates the pair with count
one and its id as provenance. -/
theorem glossary_step_alignment_witness :
    alookup ("Alpha", "アイ")
        (glossaryStep emptyGlossary ("id1", "Alpha beta", "アイ")).pairs =
      some ⟨"Alpha", "アイ", 1, insert "id1" ∅⟩ := by
  have h := (glossary_step_alignment emptyGlossary ("id1", "Alpha beta", "アイ")).1
    ("Alpha", "アイ") (by decide)
  exact h.2.2.1

theorem alignedIds_cons_pos (k : String × String) (u : String × String × String)
    (l : List (String × String × String)) (h : unitKey u = some k) :
    alignedIds k (u :: l) = u.1 :: alignedIds k l := by
  simp [alignedIds, List.filter_cons, h]

theorem alignedIds_cons_neg (k : String × String) (u : String × String × String)
    (l : List (String × String × String)) (h : ¬ unitKey u = some k) :
    alignedIds k (u :: l) = alignedIds k l := by
  simp [alignedIds, List.filter_cons, h]

theorem enHits_cons_pos (t : String) (u : String × String × String)
    (l : List (String × String × String))
    (h : unitKey u = none ∧ t ∈ extract_en u.2.1.data) :
    enHits t (u :: l) = u.1 :: enHits t l := by
  simp [enHits, List.filter_cons, h.1, h.2]

theorem enHits_cons_neg (t : String) (u : String × String × String)
    (l : List (String × String × String))
    (h : ¬ (unitKey u = none ∧ t ∈ extract_en u.2.1.data)) :
    enHits t (u :: l) = enHits t l := by
  simp only [enHits, List.filter_cons]
  rw [if_neg (by simpa using h)]

theorem jaHits_cons_pos (t : String) (u : String × String × String)
    (l : List (String × String × String))
    (h : unitKey u = none ∧ t ∈ extract_ja u.2.2.data) :
    jaHits t (u :: l) = u.1 :: jaHits t l := by
  simp [jaHits, List.filter_cons, h.1, h.2]

theorem jaHits_cons_neg (t : String) (u : String × String × String)
    (l : List (String × String × String))
    (h : ¬ (unitKey u = none ∧ t ∈ extract_ja u.2.2.data)) :
    jaHits t (u :: l) = jaHits t l := by
  simp only [jaHits, List.filter_cons]
  rw [if_neg (by simpa using h)]

theorem pairAcc_nil (k : String × String) (b : Option Pair) :
    pairAcc k b [] = b := by
  rcases b with _ | p
  · simp [pairAcc]
  · cases p
    simp [pairAcc]

theorem pairAcc_bump (k : String × String) (b : Option Pair) (sid : String)
    (ids : List String) :
    pairAcc k (some (bumpVal k b sid)) ids = pairAcc k b (sid :: ids) := by
  rcases b with _ | p
  · simp [pairAcc, bumpVal, Finset.insert_union, Nat.add_comm]
    exact (Finset.insert_eq _ _).symm
  · simp [pairAcc, bumpVal, Finset.insert_union, Finset.union_insert,
      Nat.add_comm, Nat.add_assoc, Nat.add_left_comm]

theorem setAcc_nil (b : Option (Finset String)) : setAcc b [] = b := by
  simp [setAcc]

theorem setAcc_insert (b : Option (Finset String)) (sid : String)
    (ids : List String) :
    setAcc (some (insert sid (b.getD ∅))) ids = setAcc b (sid :: ids) := by
  by_cases hids : ids = []
  · simp [setAcc, hids]
    exact Finset.insert_eq _ _
  · simp [setAcc, hids, Finset.insert_union, Finset.union_insert]

/-- Step lemma for pairs restated through the bumped value. -/
theorem glossaryStep_pairs_lookup_bumpVal (st : GlossaryState)
    (u : String × String × String) (k : String × String) :
    alookup k (glossaryStep st u).pairs =
      if unitKey u = some k then some (bumpVal k (alookup k st.pairs) u.1)
      else alookup k st.pairs := by
  cases h : alookup k st.pairs <;> rw [glossaryStep_pairs_lookup, h] <;> rfl

/-- Pair lookup after folding a unit list from any starting state: the
units aligned to the key contribute their ids on top of the base value. -/
theorem foldl_pairs_lookup (l : List (String × String × String)) :
    ∀ (st : GlossaryState) (k : String × String),
    alookup k ((l.foldl glossaryStep st).pairs) =
      pairAcc k (alookup k st.pairs) (alignedIds k l) := by
  induction l with
  | nil =>
    intro st k
    simp only [List.foldl_nil]
    exact (pairAcc_nil k _).symm
  | cons u l ih =>
    intro st k
    simp only [List.foldl_cons]
    rw [ih, glossaryStep_pairs_lookup_bumpVal]
    by_cases hA : unitKey u = some k
    · rw [if_pos hA, pairAcc_bump, alignedIds_cons_pos k u l hA]
    · rw [if_neg hA, alignedIds_cons_neg k u l hA]

/-- Source-side unmatched lookup after folding a unit list from any
starting state. -/
theorem foldl_en_lookup (l : List (String × String × String)) :
    ∀ (st : GlossaryState) (t : String),
    alookup t ((l.foldl glossaryStep st).en_unmatched) =
      setAcc (alookup t st.en_unmatched) (enHits t l) := by
  induction l with
  | nil =>
    intro st t
    simp only [List.foldl_nil]
    exact (setAcc_nil _).symm
  | cons u l ih =>
    intro st t
    simp only [List.foldl_cons]
    rw [ih, glossaryStep_en_lookup]
    by_cases hc : unitKey u = none ∧ t ∈ extract_en u.2.1.data
    · rw [if_pos hc, setAcc_insert, enHits_cons_pos t u l hc]
    · rw [if_neg hc, enHits_cons_neg t u l hc]

/-- Target-side unmatched lookup after folding a unit list from any
starting state. -/
theorem foldl_ja_lookup (l : List (String × String × String)) :
    ∀ (st : GlossaryState) (t : String),
    alookup t ((l.foldl glossaryStep st).ja_unmatched) =
      setAcc (alookup t st.ja_unmatched) (jaHits t l) := by
  induction l with
  | nil =>
    intro st t
    simp only [List.foldl_nil]
    exact (setAcc_nil _).symm
  | cons u l ih =>
    intro st t
    simp only [List.foldl_cons]
    rw [ih, glossaryStep_ja_lookup]
    by_cases hc : unitKey u = none ∧ t ∈ extract_ja u.2.2.data
    · rw [if_pos hc, setAcc_insert, jaHits_cons_pos t u l hc]
    · rw [if_neg hc, jaHits_cons_neg t u l hc]

/-- Closed form of a pair lookup in a finished glossary. -/
theorem build_pairs_lookup (l : List (String × String × String))
    (k : String × String) :
    alookup k (build_glossary l).pairs = pairAcc k none (alignedIds k l) := by
  have h := foldl_pairs_lookup l emptyGlossary k
  simpa [build_glossary, emptyGlossary, alookup] using h

/-- Closed form of a source-side unmatched lookup in a finished glossary. -/
theorem build_en_lookup (l : List (String × String × String)) (t : String) :
    alookup t (build_glossary l).en_unmatched = setAcc none (enHits t l) := by
  have h := foldl_en_lookup l emptyGlossary t
  simpa [build_glossary, emptyGlossary, alookup] using h

/-- Closed form of a target-side unmatched lookup in a finished glossary. -/
theorem build_ja_lookup (l : List (String × String × String)) (t : String) :
    alookup t (build_glossary l).ja_unmatched = setAcc none (jaHits t l) := by
  have h := foldl_ja_lookup l emptyGlossary t
  simpa [build_glossary, emptyGlossary, alookup] using h

/-- Claim C1 counterexample: on a segmented-shape document the checker's
extractor yields the unit while the glossary extractor, which has no
segmented fallback, yields nothing — the two unit streams differ. -/
theorem iter_units_mismatch_on_segmented :
    iter_units_check segDoc = [("u1", "Hello", "World")] ∧
    iter_units_glossary segDoc = [] ∧
    iter_units_check segDoc ≠ iter_units_glossary segDoc := by
  decide

/-- Claim C1 (amended): on every document containing at least one element
whose tag is literally trans-unit, the checker's and the glossary's unit
extractions yield the same sequence of triples; without one, the glossary
extraction yields nothing while the checker may yield segmented units. -/
theorem iter_units_agree_on_flat (root : Elem) (h : flatTransUnits root ≠ []) :
    iter_units_check root = iter_units_glossary root := by
  have hc : ¬ ((flatTransUnits root).isEmpty = true) := by
    simpa [List.isEmpty_iff] using h
  simp only [iter_units_check, iter_units_glossary, if_neg hc]

/-- Claim C1 witness: the two extractions agree on the concrete flat
document. -/
theorem iter_units_agree_on_flat_witness :
    iter_units_check flatDoc = iter_units_glossary flatDoc :=
  iter_units_agree_on_flat flatDoc (by
    intro hc
    exact absurd (congrArg List.length hc) (by decide))

/-- Claim C2 counterexample: a document whose trans-unit carries a
namespace URI (as parsing a file with a default namespace produces) has a
trans-unit, source and target by local tag name anywhere in the tree, yet
both extractions yield no unit at all — flat matching is by exact tag, not
by local tag. -/
theorem namespaced_trans_unit_not_matched :
    localOf nsTU.tag = "trans-unit" ∧
    descendants nsDoc = [nsTU, nsSrc, nsTgt] ∧
    localOf nsSrc.tag = "source" ∧
    localOf nsTgt.tag = "target" ∧
    iter_units_check nsDoc = [] ∧
    iter_units_glossary nsDoc = [] := by
  refine ⟨by decide, rfl, by decide, by decide, by decide, by decide⟩

/-- Claim C2 (amended): flat-shape extraction matches by exact tag name
only: an element anywhere below the root is collected as a trans-unit
exactly when its full tag is the literal string trans-unit (so a
namespace-carrying tag never matches), and such an element with literal
source and target children contributes its triple to the checker's
stream. -/
theorem flat_match_exact_tag (root tu : Elem) (hmem : tu ∈ descendants root) :
    (tu ∈ flatTransUnits root ↔ tu.tag = "trans-unit") ∧
    (∀ s t, tu.tag = "trans-unit" → findChild "source" tu = some s →
      findChild "target" tu = some t →
      (getAttr tu "id", itertext s, itertext t) ∈ iter_units_check root) := by
  constructor
  · simp [flatTransUnits, List.mem_filter, hmem]
  · intro s t htag hs ht
    have htu : tu ∈ flatTransUnits root := by
      simp [flatTransUnits, List.mem_filter, hmem, htag]
    have hne : ¬ ((flatTransUnits root).isEmpty = true) := by
      simp [List.isEmpty_iff]
      exact List.ne_nil_of_mem htu
    simp only [iter_units_check, if_neg hne]
    refine List.mem_filterMap.mpr ⟨tu, htu, ?_⟩
    simp [flatRecord, hs, ht]

/-- Claim C2 witness: in the concrete un-namespaced flat document the
trans-unit is matched and yields its triple. -/
theorem flat_match_exact_tag_witness :
    ("1", "Hello", "World") ∈ iter_units_check flatDoc := by
  have h := (flat_match_exact_tag flatDoc flatTU
      (by simp [descendants, descList, elemDesc, flatDoc, flatTU])).2
    flatSrc flatTgt (by decide) rfl rfl
  simpa using h

/-- Claim C5: when any literal trans-unit exists the checker's extraction
is exactly the flat pipeline (the segmented shape is never consulted); a
unit with exactly one segment emits records under the unit's own id; and
in a unit with two or more segments, the segment at 1-based index i emits
its record under the id unit-id, colon, i. -/
theorem shape_priority_and_segment_ids (root u : Elem) :
    (flatTransUnits root ≠ [] →
      iter_units_check root = (flatTransUnits root).filterMap flatRecord) ∧
    ((segmentsOf u).length = 1 → ∀ r ∈ segRecords u, r.1 = getAttr u "id") ∧
    (2 ≤ (segmentsOf u).length →
      ∀ p ∈ (segmentsOf u).enum, ∀ r,
        segRecord (getAttr u "id") (segmentsOf u).length (p.1 + 1) p.2 = some r →
        r.1 = getAttr u "id" ++ ":" ++ toString (p.1 + 1)) := by
  refine ⟨?_, ?_, ?_⟩
  · intro h
    have hc : ¬ ((flatTransUnits root).isEmpty = true) := by
      simpa [List.isEmpty_iff] using h
    simp only [iter_units_check, if_neg hc]
  · intro hlen r hr
    simp only [segRecords] at hr
    obtain ⟨p, _, hf⟩ := List.mem_filterMap.mp hr
    rw [hlen] at hf
    simp only [segRecord] at hf
    rcases h1 : lastChildWith "source" p.2.children with _ | s <;>
      rcases h2 : lastChildWith "target" p.2.children with _ | t <;>
        rw [h1, h2] at hf <;> simp at hf
    subst hf
    rfl
  · intro hlen p _ r hf
    have hne : (segmentsOf u).length ≠ 1 := by omega
    simp only [segRecord] at hf
    rcases h1 : lastChildWith "source" p.2.children with _ | s <;>
      rcases h2 : lastChildWith "target" p.2.children with _ | t <;>
        rw [h1, h2] at hf <;> simp at hf
    subst hf
    show (if (segmentsOf u).length = 1 then getAttr u "id"
          else getAttr u "id" ++ ":" ++ toString (p.1 + 1)) = _
    rw [if_neg hne]

/-- Claim C5 witness: on the mixed document only trans-unit data is
extracted; the single-segment unit emits under the unit id; the second of
two segments emits under the unit id with the 1-based index 2. -/
theorem shape_priority_and_segment_ids_witness :
    iter_units_check mixDoc = (flatTransUnits mixDoc).filterMap flatRecord ∧
    ("u1", "Hello", "World").1 = getAttr segU "id" ∧
    ("tu2:2", "cc", "dd").1 = getAttr twoSegUnit "id" ++ ":" ++ toString (1 + 1) := by
  refine ⟨?_, ?_, ?_⟩
  · exact (shape_priority_and_segment_ids mixDoc segU).1 (by
      intro hc
      exact absurd (congrArg List.length hc) (by decide))
  · exact (shape_priority_and_segment_ids mixDoc segU).2.1 (by decide)
      ("u1", "Hello", "World") (by decide)
  · exact (shape_priority_and_segment_ids mixDoc twoSegUnit).2.2 (by decide)
      (1, twoSeg2)
      (by
        have hsegs : (segmentsOf twoSegUnit).enum = [(0, twoSeg1), (1, twoSeg2)] := rfl
        rw [hsegs]
        exact List.mem_cons_of_mem _ (List.mem_cons_self _ _))
      ("tu2:2", "cc", "dd") (by decide)

/-- Claim C3 counterexample: strip_markup applied to the four characters
star slash slash star deletes the double slash and thereby joins the two
asterisks, so the returned string does contain a double star — the claim
that the result contains no double star and no double slash fails here. -/
theorem strip_markup_double_star_counterexample :
    ¬ (hasSub2 '*' '*' (strip_markup ("*//*".data)) = false ∧
       hasSub2 '/' '/' (strip_markup ("*//*".data)) = false) := by
  decide

/-- Claim C3 (amended): strip_markup deletes every double star and then
every double slash; the returned string contains no occurrence of the
double slash, though the slash removal may create a new double star. -/
theorem strip_markup_no_double_slash (s : List Char) :
    hasSub2 '/' '/' (strip_markup s) = false :=
  hasSub2_replace2_self '/' (replace2 '*' '*' s)

/-- Claim C4: strip_markup is not idempotent — there is an input on which a
second application changes the result of the first. -/
theorem strip_markup_not_idempotent :
    ∃ s : List Char, strip_markup (strip_markup s) ≠ strip_markup s :=
  ⟨"*//*".data, by decide⟩

/-- Claim C7: the analyze report list is the per-unit computation mapped
over the units, and for every unit the computed ratio is the cleaned target
visible length divided by the cleaned source visible length floored to one;
the divisor is positive (never zero), and a zero-length cleaned source
makes the ratio equal the cleaned target length. -/
theorem analyze_ratio_spec (mn mx ath : ℚ)
    (units : List (String × String × String)) (id S T : String) :
    (analyze mn mx ath units).1 = units.map (mkUnitReport mn mx ath) ∧
    (mkUnitReport mn mx ath (id, S, T)).ratio =
      (char_len (strip_markup T.data) : ℚ) /
        ((max (char_len (strip_markup S.data)) 1 : Nat) : ℚ) ∧
    (0 : ℚ) < ((max (char_len (strip_markup S.data)) 1 : Nat) : ℚ) ∧
    (char_len (strip_markup S.data) = 0 →
      (mkUnitReport mn mx ath (id, S, T)).ratio =
        (char_len (strip_markup T.data) : ℚ)) := by
  have hpos : 0 < max (char_len (strip_markup S.data)) 1 :=
    lt_of_lt_of_le one_pos (le_max_right _ _)
  refine ⟨rfl, ?_, ?_, ?_⟩
  · simp only [mkUnitReport]
    rw [if_pos hpos.ne']
  · exact_mod_cast hpos
  · intro h0
    simp only [mkUnitReport, h0]
    norm_num

/-- Claim C8: the untranslated flag holds exactly when the normalized
cleaned source equals the normalized cleaned target and that common value
is non-empty; in particular two independently empty texts are never
flagged. -/
theorem analyze_untranslated_spec (mn mx ath : ℚ) (id S T : String) :
    ((mkUnitReport mn mx ath (id, S, T)).untranslated = true ↔
       (normalize_text (strip_markup S.data) = normalize_text (strip_markup T.data) ∧
        normalize_text (strip_markup S.data) ≠ [])) ∧
    ((normalize_text (strip_markup S.data) = [] ∧
      normalize_text (strip_markup T.data) = []) →
        (mkUnitReport mn mx ath (id, S, T)).untranslated = false) := by
  constructor
  · simp [mkUnitReport]
  · rintro ⟨h1, _⟩
    simp [mkUnitReport, h1]

/-- Claim C7 witness: on a unit whose source cleans to nothing (it is only
markup) and whose target has two visible characters, the ratio is 2. -/
theorem analyze_ratio_spec_witness :
    (mkUnitReport (3 / 10) (5 / 2) (7 / 10) ("u1", "**", "ab")).ratio = 2 := by
  have h := analyze_ratio_spec (3 / 10) (5 / 2) (7 / 10) [] "u1" "**" "ab"
  have h0 : char_len (strip_markup ("**" : String).data) = 0 := by decide
  rw [h.2.2.2 h0]
  norm_num
  decide

/-- Claim C8 witness: a source and target differing only in case and
whitespace are flagged untranslated. -/
theorem analyze_untranslated_spec_witness :
    (mkUnitReport (3 / 10) (5 / 2) (7 / 10) ("u1", "A b", "ab")).untranslated = true :=
  (analyze_untranslated_spec (3 / 10) (5 / 2) (7 / 10) "u1" "A b" "ab").1.mpr
    ⟨by decide, by decide⟩

theorem pairAcc_perm (k : String × String) (b : Option Pair)
    (ids ids' : List String) (hp : List.Perm ids ids') :
    pairAcc k b ids = pairAcc k b ids' := by
  have hlen := hp.length_eq
  have hfin := List.toFinset_eq_of_perm _ _ hp
  rcases b with _ | p
  · by_cases hn : ids = []
    · have hn' : ids' = [] := by
        rw [hn] at hp
        exact hp.symm.eq_nil
      rw [hn, hn']
    · have hn' : ids' ≠ [] := by
        intro hh
        rw [hh] at hp
        exact hn hp.eq_nil
      simp [pairAcc, hn, hn', hlen, hfin]
  · simp [pairAcc, hlen, hfin]

theorem setAcc_perm (b : Option (Finset String)) (ids ids' : List String)
    (hp : List.Perm ids ids') :
    setAcc b ids = setAcc b ids' := by
  by_cases hn : ids = []
  · have hn' : ids' = [] := by
      rw [hn] at hp
      exact hp.symm.eq_nil
    rw [hn, hn']
  · have hn' : ids' ≠ [] := by
      intro hh
      rw [hh] at hp
      exact hn hp.eq_nil
    simp [setAcc, hn, hn', List.toFinset_eq_of_perm _ _ hp]

/-- Claim C9: build_glossary is commutative over unit order — for
permuted unit lists the pairs dict (counts, terms and example-id sets) and
both unmatched maps have identical lookups at every key. -/
theorem build_glossary_perm_invariant (l l' : List (String × String × String))
    (h : List.Perm l l') :
    (∀ k, alookup k (build_glossary l).pairs =
      alookup k (build_glossary l').pairs) ∧
    (∀ t, alookup t (build_glossary l).en_unmatched =
      alookup t (build_glossary l').en_unmatched) ∧
    (∀ t, alookup t (build_glossary l).ja_unmatched =
      alookup t (build_glossary l').ja_unmatched) := by
  refine ⟨?_, ?_, ?_⟩
  · intro k
    rw [build_pairs_lookup, build_pairs_lookup]
    exact pairAcc_perm k none _ _ ((h.filter _).map _)
  · intro t
    rw [build_en_lookup, build_en_lookup]
    exact setAcc_perm none _ _ ((h.filter _).map _)
  · intro t
    rw [build_ja_lookup, build_ja_lookup]
    exact setAcc_perm none _ _ ((h.filter _).map _)

/-- Claim C9 witness: swapping two concrete units (one aligned, one with
two source candidates) leaves the pair lookup unchanged. -/
theorem build_glossary_perm_invariant_witness :
    alookup ("Alpha", "アイ")
        (build_glossary
          [("i1", "Alpha beta", "アイ"), ("i2", "Xy Zw", "ウエ")]).pairs =
      alookup ("Alpha", "アイ")
        (build_glossary
          [("i2", "Xy Zw", "ウエ"), ("i1", "Alpha beta", "アイ")]).pairs :=
  (build_glossary_perm_invariant _ _ (List.Perm.swap _ _ _)).1 ("Alpha", "アイ")

/-- Claim C10: every Pair in a finished glossary has a count of at least
one, a non-empty example-id set, and a count at least the number of
example ids (the count rises once per contributing unit while the id set
deduplicates). -/
theorem build_glossary_pair_invariants (l : List (String × String × String))
    (k : String × String) (p : Pair)
    (h : alookup k (build_glossary l).pairs = some p) :
    1 ≤ p.count ∧ p.ids.Nonempty ∧ p.ids.card ≤ p.count := by
  rw [build_pairs_lookup] at h
  by_cases hn : alignedIds k l = []
  · rw [hn] at h
    simp [pairAcc] at h
  · simp only [pairAcc, if_neg hn, Option.some.injEq] at h
    subst h
    refine ⟨List.length_pos.mpr hn, ?_, List.toFinset_card_le _⟩
    rcases List.exists_mem_of_ne_nil _ hn with ⟨x, hx⟩
    exact ⟨x, List.mem_toFinset.mpr hx⟩

/-- Claim C10 witness: the pair built from one aligned unit has count one,
one example id, and the bound holds. -/
theorem build_glossary_pair_invariants_witness :
    1 ≤ (Pair.mk "Alpha" "アイ" 1 {"i1"}).count ∧
    (Pair.mk "Alpha" "アイ" 1 {"i1"}).ids.Nonempty ∧
    (Pair.mk "Alpha" "アイ" 1 {"i1"}).ids.card ≤
      (Pair.mk "Alpha" "アイ" 1 {"i1"}).count :=
  build_glossary_pair_invariants [("i1", "Alpha beta", "アイ")]
    ("Alpha", "アイ") _ (by decide)

end XliffCore
